import Mathlib

/-
Verification of the openclaw chat core and helpers.

Part 1 models the chat-event reducer and the history/usage loaders of the
repository's chat module. That module is present in the repository only
through its test files; the executable definitions below are therefore
modelled from the specification (sections 4.1-4.3), using the state-field
names that the repository's own tests exercise.

Part 2 embeds resolveAgentAvatar and its helpers from
src/agents/identity-avatar.ts over an explicit filesystem environment.

Part 3 embeds getTruncatedPreview from ui/chat/tool-helpers.ts over
characters-as-lists.
-/


/-- A content block of a conversation turn. Block shape is non-strict at the
reducer's layer; only the fields used by synthesized messages are kept. -/
structure ContentBlock where
  type : String
  text : String
deriving DecidableEq

/-- A conversation turn: role, content blocks and an optional timestamp. -/
structure ChatMessage where
  role : String
  content : List ContentBlock
  timestamp : Option Int
deriving DecidableEq

/-- Modelled from the spec: the inbound payload's `message` arrives on an
untyped channel, so it may be a non-object, or an object with an arbitrary
role and a possibly missing content field (spec section 4.1 and 9). -/
inductive MessageCandidate where
  | object (role : String) (content : Option (List ContentBlock)) (timestamp : Option Int)
  | notAnObject (s : String)
deriving DecidableEq

/-- Modelled from the spec: "structurally valid assistant message" means role
exactly "assistant" with a content field that is present; any other shape is
invalid. A valid candidate is appended as-is (spec section 4.1). -/
def asValidAssistantMessage : Option MessageCandidate → Option ChatMessage
  | some (.object r (some c) ts) => if r = "assistant" then some ⟨r, c, ts⟩ else none
  | _ => none

/-- The conversation state mutated by the reducer and the loaders. The field
names follow the repository's ChatState as exercised by its tests; the
external client handle is omitted because the loaders below take the
client's responses as explicit inputs. -/
structure ChatState where
  chatAttachments : List String
  chatLoading : Bool
  chatUsageLoading : Bool
  chatMessage : String
  chatMessages : List ChatMessage
  chatUsageLastTurnTokens : Option Int
  chatUsageLastTurnCost : Option ℚ
  chatUsageCumulativeTokens : Option Int
  chatUsageCumulativeCost : Option ℚ
  chatRunId : Option String
  chatSending : Bool
  chatStream : Option String
  chatStreamStartedAt : Option Int
  chatThinkingLevel : Option String
  connected : Bool
  lastError : Option String
  sessionKey : String
deriving DecidableEq

/-- The `state` tag of an inbound chat event (spec section 6). -/
inductive ChatEventKind where
  | delta
  | final
  | aborted
deriving DecidableEq

/-- Modelled from the spec: the inbound event payload, with runId, sessionKey,
a state tag and an optional message; deltaText carries the text fragment the
delta branch appends (spec sections 4.1 and 6). -/
structure ChatEventPayload where
  runId : String
  sessionKey : String
  state : ChatEventKind
  message : Option MessageCandidate
  deltaText : Option String
deriving DecidableEq

/-- The reducer's outcome: which branch fired. `none` (ignored) is represented
by `Option ChatEventOutcome` at the call site. -/
inductive ChatEventOutcome where
  | delta
  | final
  | aborted
deriving DecidableEq

/-- Modelled from the spec: the chat-event reducer handleChatEvent of the
repository's chat module, which is present in the repository only through its
tests. `now` stands for the clock reading used when a delta is the first
event observed for the active run. Returns the updated state and the outcome
(`none` meaning the event was ignored). Branch order follows spec section 4.1:
missing payload, session mismatch and foreign-run deltas are rejected without
mutation; an own-run terminal event appends at most one message and then
unconditionally clears chatRunId, chatStream and chatStreamStartedAt; a
foreign-run final may append a valid assistant message but never touches the
run/stream fields; a foreign-run aborted is accepted with no append and no
clears; an own-run aborted falls back from the payload message to a message
synthesized from a non-empty streamed text. -/
def handleChatEvent (now : Int) (state : ChatState) (payload : Option ChatEventPayload) :
    ChatState × Option ChatEventOutcome :=
  match payload with
  | none => (state, none)
  | some p =>
    if p.sessionKey ≠ state.sessionKey then (state, none)
    else
      match p.state with
      | .delta =>
        if some p.runId ≠ state.chatRunId then (state, none)
        else
          ({ state with
              chatStream := some ((state.chatStream.getD "") ++ (p.deltaText.getD "")),
              chatStreamStartedAt := some (state.chatStreamStartedAt.getD now) },
            some .delta)
      | .final =>
        if some p.runId = state.chatRunId then
          ({ state with
              chatMessages :=
                match asValidAssistantMessage p.message with
                | some m => state.chatMessages ++ [m]
                | none => state.chatMessages,
              chatRunId := none,
              chatStream := none,
              chatStreamStartedAt := none },
            some .final)
        else
          ({ state with
              chatMessages :=
                match asValidAssistantMessage p.message with
                | some m => state.chatMessages ++ [m]
                | none => state.chatMessages },
            some .final)
      | .aborted =>
        if some p.runId = state.chatRunId then
          ({ state with
              chatMessages :=
                match asValidAssistantMessage p.message with
                | some m => state.chatMessages ++ [m]
                | none =>
                  match state.chatStream with
                  | some s =>
                    if s = "" then state.chatMessages
                    else state.chatMessages ++ [⟨"assistant", [⟨"text", s⟩], none⟩]
                  | none => state.chatMessages,
              chatRunId := none,
              chatStream := none,
              chatStreamStartedAt := none },
            some .aborted)
        else (state, some .aborted)

/-- One point of the usage timeseries (spec section 6). -/
structure UsagePoint where
  totalTokens : Int
  cost : ℚ
  cumulativeTokens : Int
  cumulativeCost : ℚ
deriving DecidableEq

/-- The sessions.usage.timeseries response (spec section 6). -/
structure UsageTimeseries where
  points : List UsagePoint
deriving DecidableEq

/-- The chat.history response (spec section 6). -/
structure HistoryResponse where
  messages : List ChatMessage
  thinkingLevel : Option String
deriving DecidableEq

/-- Modelled from the spec: the usage summary loader loadChatUsageSummary of
the repository's chat module (spec section 4.3), taking the external client's
response as an explicit input (`Except.error` meaning the request threw).
Sets chatUsageLoading while working; on an empty points sequence all four
usage fields are cleared; otherwise they are derived from the last point; on
a fetch failure the prior usage values are retained; chatUsageLoading ends
false in every case. -/
def loadChatUsageSummary (state : ChatState) (resp : Except String UsageTimeseries) :
    ChatState :=
  let s := { state with chatUsageLoading := true }
  match resp with
  | .error _ => { s with chatUsageLoading := false }
  | .ok r =>
    match r.points.getLast? with
    | none =>
      { s with
          chatUsageLastTurnTokens := none,
          chatUsageLastTurnCost := none,
          chatUsageCumulativeTokens := none,
          chatUsageCumulativeCost := none,
          chatUsageLoading := false }
    | some p =>
      { s with
          chatUsageLastTurnTokens := some p.totalTokens,
          chatUsageLastTurnCost := some p.cost,
          chatUsageCumulativeTokens := some p.cumulativeTokens,
          chatUsageCumulativeCost := some p.cumulativeCost,
          chatUsageLoading := false }

/-- Modelled from the spec: the history loader loadChatHistory of the
repository's chat module (spec section 4.2), taking the two external
responses as explicit inputs. Sets chatLoading and clears lastError; on a
successful history fetch replaces chatMessages and sets chatThinkingLevel; on
failure records a user-facing error and keeps chatMessages; chatLoading ends
false; then unconditionally runs the usage summary loader, whose failure is
swallowed and cannot overwrite lastError. -/
def loadChatHistory (state : ChatState) (hist : Except String HistoryResponse)
    (usage : Except String UsageTimeseries) : ChatState :=
  let s0 := { state with chatLoading := true, lastError := none }
  let s1 :=
    match hist with
    | .ok r =>
      { s0 with
          chatMessages := r.messages,
          chatThinkingLevel := r.thinkingLevel,
          chatLoading := false }
    | .error e => { s0 with lastError := some e, chatLoading := false }
  loadChatUsageSummary s1 usage

/-- A baseline conversation state used by concrete witnesses, mirroring the
createState helper of the repository's tests. -/
def baseChatState : ChatState where
  chatAttachments := []
  chatLoading := false
  chatUsageLoading := false
  chatMessage := ""
  chatMessages := []
  chatUsageLastTurnTokens := none
  chatUsageLastTurnCost := none
  chatUsageCumulativeTokens := none
  chatUsageCumulativeCost := none
  chatRunId := none
  chatSending := false
  chatStream := none
  chatStreamStartedAt := none
  chatThinkingLevel := none
  connected := true
  lastError := none
  sessionKey := "main"

/-- A state with an active run and streamed text, used by concrete witnesses. -/
def streamingChatState : ChatState :=
  { baseChatState with
      chatRunId := some "run-1"
      chatStream := some "Partial"
      chatStreamStartedAt := some 100 }

/-- The usage timeseries of the specification's worked example. -/
def sampleUsagePoints : List UsagePoint :=
  [⟨42, 8 / 10000, 42, 8 / 10000⟩, ⟨128, 24 / 10000, 170, 32 / 10000⟩]

/-
Part 2: avatar resolution (src/agents/identity-avatar.ts).

Filesystem paths are modelled as lists of components of normalized absolute
posix paths (no "." or ".." components, no separators inside a component);
node's realpath never returns such components. The filesystem itself and the
helpers imported from other modules (resolveAgentIdentity,
loadAgentIdentityFromWorkspace, resolveAgentWorkspaceDir, resolveUserPath and
node's path.resolve on a raw string) are supplied by an explicit environment.
-/

/-- JS String.prototype.startsWith over the characters of Lean strings (the
byte-position-based String.startsWith of the core library is semantically the
same but does not evaluate inside the kernel). -/
def strStartsWith (s pre : String) : Bool :=
  pre.toList.isPrefixOf s.toList

/-- JS String.prototype.toLowerCase over characters. -/
def strToLower (s : String) : String :=
  String.mk (s.toList.map Char.toLower)

/-- JS String.prototype.trim over characters: strip whitespace on both ends. -/
def strTrim (s : String) : String :=
  String.mk
    (((s.toList.dropWhile Char.isWhitespace).reverse.dropWhile Char.isWhitespace).reverse)

/-- Kind of filesystem node reported by stat. -/
inductive FileKind where
  | file
  | directory
  | other
deriving DecidableEq

/-- A directory entry as returned by readdir with file types. -/
structure DirEntry where
  name : String
  isFile : Bool
deriving DecidableEq

/-- Number of leading components two paths share — the common base that node
path.relative walks up from. -/
def commonLen : List String → List String → Nat
  | a :: as, b :: bs => if a = b then commonLen as bs + 1 else 0
  | _, _ => 0

/-- Components of node path.relative(root, target) for normalized absolute
paths: one ".." per root component beyond the common base, then the target's
remaining components. -/
def relComponents (root target : List String) : List String :=
  List.replicate (root.length - commonLen root target) ".." ++
    target.drop (commonLen root target)

/-- isPathWithin from identity-avatar.ts: an empty relative path means the
target is the root itself; otherwise the relative path must not start with
".." (path.relative of two absolute posix paths is never absolute, so the
source's isAbsolute conjunct is constantly false here). The startsWith test
is on the joined string, so it looks at the first component's prefix. -/
def isPathWithin (root target : List String) : Bool :=
  match relComponents root target with
  | [] => true
  | c :: _ => !(strStartsWith c "..")

/-- The configuration and filesystem environment of one resolveAgentAvatar
call. realpath, statKind and readdir model fs.realpathSync, fs.statSync and
fs.readdirSync (`none` meaning the call throws); avatarFromConfig,
avatarFromIdentityFile and workspaceDir model the imported helpers
resolveAgentIdentity(cfg, agentId)?.avatar,
loadAgentIdentityFromWorkspace(workspace)?.avatar and
resolveAgentWorkspaceDir(cfg, agentId); resolveUserPath models the utility of
the same name (for raw values starting with "~" or "/"), and pathResolve
models node path.resolve(workspaceRoot, raw) for relative raw values. -/
structure AvatarEnv where
  avatarFromConfig : Option String
  avatarFromIdentityFile : Option String
  workspaceDir : List String
  realpath : List String → Option (List String)
  statKind : List String → Option FileKind
  readdir : List String → List DirEntry
  resolveUserPath : String → List String
  pathResolve : List String → String → List String

/-- normalizeAvatarValue from identity-avatar.ts: trim, and drop empties. -/
def normalizeAvatarValue (value : Option String) : Option String :=
  match value with
  | none => none
  | some v => if strTrim v = "" then none else some (strTrim v)

/-- resolveAvatarSource from identity-avatar.ts: the config value wins over
the workspace IDENTITY file value. -/
def resolveAvatarSource (env : AvatarEnv) : Option String :=
  match normalizeAvatarValue env.avatarFromConfig with
  | some s => some s
  | none => normalizeAvatarValue env.avatarFromIdentityFile

/-- isRemoteAvatar from identity-avatar.ts. -/
def isRemoteAvatar (value : String) : Bool :=
  strStartsWith (strToLower value) "http://" || strStartsWith (strToLower value) "https://"

/-- isDataAvatar from identity-avatar.ts. -/
def isDataAvatar (value : String) : Bool :=
  strStartsWith (strToLower value) "data:"

/-- resolveExistingPath from identity-avatar.ts: the real path when realpath
succeeds, otherwise path.resolve(value), which is the identity on an already
normalized absolute path. -/
def resolveExistingPath (env : AvatarEnv) (value : List String) : List String :=
  match env.realpath value with
  | some r => r
  | none => value

/-- Index of the last '.' in a list of characters, if any. -/
def lastDotIdx (cs : List Char) : Option Nat :=
  match cs.reverse.findIdx? (fun c => c == '.') with
  | some k => some (cs.length - 1 - k)
  | none => none

/-- node path.extname of a base name, lowercased as the source does: the
suffix from the last dot, empty when there is no dot or the dot is the
leading character. (Base names of normalized real paths are never "." or
"..", so node's special cases for those do not arise.) -/
def extnameLower (name : String) : String :=
  match lastDotIdx name.toList with
  | none => ""
  | some 0 => ""
  | some i => strToLower (String.mk (name.toList.drop i))

/-- ALLOWED_AVATAR_EXTS from identity-avatar.ts. -/
def allowedAvatarExts : List String :=
  [".png", ".jpg", ".jpeg", ".gif", ".webp", ".svg"]

/-- Result of resolveLocalAvatarPath. -/
inductive LocalAvatarResolution where
  | fileOk (filePath : List String)
  | directoryOk (directoryPath : List String)
  | err (reason : String)
deriving DecidableEq

/-- The workspace root as resolveLocalAvatarPath computes it. -/
def avatarWorkspaceRoot (env : AvatarEnv) : List String :=
  resolveExistingPath env env.workspaceDir

/-- The candidate avatar location after raw resolution and real-path
resolution, as resolveLocalAvatarPath computes it. -/
def avatarRealPath (env : AvatarEnv) (raw : String) : List String :=
  resolveExistingPath env
    (if strStartsWith raw "~" || strStartsWith raw "/" then env.resolveUserPath raw
      else env.pathResolve (avatarWorkspaceRoot env) raw)

/-- resolveLocalAvatarPath from identity-avatar.ts: resolve the raw value
(through resolveUserPath for home-relative or absolute values, against the
workspace root otherwise), take the real path, reject anything outside the
workspace, then classify by stat: directories pass through, files need an
allowed extension, anything else is missing. -/
def resolveLocalAvatarPath (env : AvatarEnv) (raw : String) : LocalAvatarResolution :=
  let workspaceRoot := avatarWorkspaceRoot env
  let realPath := avatarRealPath env raw
  if !(isPathWithin workspaceRoot realPath) then .err "outside_workspace"
  else
    match env.statKind realPath with
    | none => .err "missing"
    | some .directory => .directoryOk realPath
    | some .file =>
      if allowedAvatarExts.contains (extnameLower ((realPath.getLast?).getD "")) then
        .fileOk realPath
      else .err "unsupported_extension"
    | some .other => .err "missing"

/-- Join path components into the string form used for sorting keys and
rotation signatures (path.join output for an absolute directory). -/
def joinPath (p : List String) : String :=
  "/" ++ String.intercalate "/" p

/-- Character-list comparison standing in for the string ordering used by
localeCompare-based sorting (the chosen total order is irrelevant to the
properties proved). -/
def charListLe : List Char → List Char → Bool
  | [], _ => true
  | _ :: _, [] => false
  | a :: as, b :: bs =>
    if a = b then charListLe as bs else Nat.blt a.toNat b.toNat

/-- Path ordering used to sort a directory's avatar files. -/
def pathLe (a b : List String) : Bool :=
  charListLe (joinPath a).toList (joinPath b).toList

/-- Insert into a sorted list of paths. -/
def insertSorted (x : List String) : List (List String) → List (List String)
  | [] => [x]
  | y :: ys => if pathLe x y then x :: y :: ys else y :: insertSorted x ys

/-- Insertion sort of paths, modelling files.sort(localeCompare). -/
def sortPaths (l : List (List String)) : List (List String) :=
  l.foldr insertSorted []

/-- listAvatarFiles from identity-avatar.ts: regular files with an allowed
extension, joined onto the directory, sorted. -/
def listAvatarFiles (env : AvatarEnv) (directoryPath : List String) :
    List (List String) :=
  sortPaths
    (((env.readdir directoryPath).filter
        (fun e => e.isFile && allowedAvatarExts.contains (extnameLower e.name))).map
      (fun e => directoryPath ++ [e.name]))

/-- DirectoryRotationState from identity-avatar.ts. -/
structure DirectoryRotationState where
  signature : String
  selectedPath : Option (List String)
  nextIndex : Int
deriving DecidableEq

/-- The rotation signature: the file list joined by newlines. -/
def rotationSignature (files : List (List String)) : String :=
  String.intercalate "\n" (files.map joinPath)

/-- Result of resolveAgentAvatar (AgentAvatarResolution in the source). -/
inductive AgentAvatarResolution where
  | noneRes (reason : String)
  | localRes (filePath : List String)
  | remote (url : String)
  | dataUrl (url : String)
deriving DecidableEq

/-- files.indexOf of the source, over decidable path equality. -/
def pathIndexOf (files : List (List String)) (p : List String) : Nat :=
  files.findIdx (fun x => decide (x = p))

/-- The revalidation step of resolveAvatarFromDirectory: when there is no
stored state, or its signature no longer matches, the stored selection is
re-checked against the current file list (its index when still present, the
in-source selectedIndex being -1 otherwise); a state with a matching
signature is kept as-is. Returns the selection and next index the rotation
then works from. -/
def rotationReval (files : List (List String)) (signature : String)
    (existing : Option DirectoryRotationState) : Option (List String) × Int :=
  match existing with
  | none => (none, 0)
  | some st =>
    if st.signature ≠ signature then
      match st.selectedPath with
      | some p =>
        if p ∈ files then
          (some (files.getD (pathIndexOf files p) []),
            ((pathIndexOf files p : Int) + 1) % files.length)
        else (none, 0)
      | none => (none, 0)
    else (st.selectedPath, st.nextIndex)

/-- resolveAvatarFromDirectory from identity-avatar.ts. The module-level
rotation map is modelled by explicit state for the one key the call touches
(workspace, agent and directory are fixed): `existing` is the entry currently
stored under that key and the second component of the result is the entry
written back. An empty directory leaves the map untouched. -/
def resolveAvatarFromDirectory (env : AvatarEnv) (directoryPath : List String)
    (advance : Bool) (existing : Option DirectoryRotationState) :
    AgentAvatarResolution × Option DirectoryRotationState :=
  let files := listAvatarFiles env directoryPath
  if files.length = 0 then (.noneRes "missing", existing)
  else
    let signature := rotationSignature files
    let fileCount : Int := (files.length : Int)
    let sn := rotationReval files signature existing
    if advance then
      let safeIndex : Nat := (((sn.2 % fileCount) + fileCount) % fileCount).toNat
      let sel2 := files.getD safeIndex []
      (.localRes sel2,
        some ⟨signature, some sel2, ((safeIndex : Int) + 1) % fileCount⟩)
    else
      match sn.1 with
      | some p => (.localRes p, some ⟨signature, some p, sn.2⟩)
      | none =>
        let sel2 := files.getD 0 []
        (.localRes sel2,
          some ⟨signature, some sel2, if 1 < files.length then 1 else 0⟩)

/-- resolveAgentAvatar from identity-avatar.ts: no usable source means none
"missing"; remote and data URLs pass through; otherwise the local resolution
decides, with directories delegated to the rotation. -/
def resolveAgentAvatar (env : AvatarEnv) (advance : Bool)
    (existing : Option DirectoryRotationState) :
    AgentAvatarResolution × Option DirectoryRotationState :=
  match resolveAvatarSource env with
  | none => (.noneRes "missing", existing)
  | some source =>
    if isRemoteAvatar source then (.remote source, existing)
    else if isDataAvatar source then (.dataUrl source, existing)
    else
      match resolveLocalAvatarPath env source with
      | .err reason => (.noneRes reason, existing)
      | .directoryOk d => resolveAvatarFromDirectory env d advance existing
      | .fileOk f => (.localRes f, existing)

/-- A concrete environment whose configured avatar is an absolute local path
whose real path lies outside the agent workspace. -/
def outsideAvatarEnv : AvatarEnv where
  avatarFromConfig := some "/etc/evil.png"
  avatarFromIdentityFile := none
  workspaceDir := ["home", "user", "ws"]
  realpath := fun p => some p
  statKind := fun _ => some .file
  readdir := fun _ => []
  resolveUserPath := fun _ => ["etc", "evil.png"]
  pathResolve := fun r _ => r

/-
Part 3: getTruncatedPreview (ui/src/ui/chat/tool-helpers.ts). Strings are
modelled as lists of characters; splitNl and joinNl are JS
text.split("\n") and lines.join("\n").
-/

/-- JS text.split("\n") over characters: the list of newline-free segments,
one more segment than there are newlines. -/
def splitNl : List Char → List (List Char)
  | [] => [[]]
  | c :: rest =>
    if c = '\n' then [] :: splitNl rest
    else
      match splitNl rest with
      | [] => [[c]]
      | h :: t => (c :: h) :: t

/-- JS lines.join("\n") over characters. -/
def joinNl : List (List Char) → List Char
  | [] => []
  | [p] => p
  | p :: ps => p ++ '\n' :: joinNl ps

/-- Number of lines of a text, as JS split("\n").length counts them. -/
def countLines (l : List Char) : Nat :=
  (splitNl l).length

/-- getTruncatedPreview from tool-helpers.ts: keep the first maxLines lines,
then cut at maxChars characters; append a single ellipsis character exactly
on the truncating branches. maxLines and maxChars stand for the
PREVIEW_MAX_LINES and PREVIEW_MAX_CHARS constants, whose defining module is
not among the sources; every property below is proved for arbitrary
values. -/
def getTruncatedPreview (maxLines maxChars : Nat) (text : List Char) : List Char :=
  let allLines := splitNl text
  let lines := allLines.take maxLines
  let preview := joinNl lines
  if maxChars < preview.length then preview.take maxChars ++ ['…']
  else if lines.length < allLines.length then preview ++ ['…']
  else preview

/-- C1: a terminal event (final or aborted) for the active run — matching
sessionKey and runId equal to the state's active run id — always clears
chatRunId, the streamed text and chatStreamStartedAt together, all three to
none, with no hypothesis on the payload's message. -/
theorem handleChatEvent_terminal_own_run_clears_all (now : Int) (state : ChatState)
    (p : ChatEventPayload)
    (hsk : p.sessionKey = state.sessionKey)
    (hterm : p.state = .final ∨ p.state = .aborted)
    (hrun : some p.runId = state.chatRunId) :
    (handleChatEvent now state (some p)).1.chatRunId = none ∧
    (handleChatEvent now state (some p)).1.chatStream = none ∧
    (handleChatEvent now state (some p)).1.chatStreamStartedAt = none := by
  rcases hterm with h | h <;>
    simp [handleChatEvent, hsk, h, hrun]

/-- Witness for C1 at a concrete streaming state and a final event that
carries no message at all. -/
theorem handleChatEvent_terminal_own_run_clears_all_witness :
    (ChatEventPayload.mk "run-1" "main" .final none none).sessionKey =
        streamingChatState.sessionKey ∧
    some (ChatEventPayload.mk "run-1" "main" .final none none).runId =
        streamingChatState.chatRunId ∧
    ((handleChatEvent 0 streamingChatState
        (some (ChatEventPayload.mk "run-1" "main" .final none none))).1.chatRunId = none ∧
      (handleChatEvent 0 streamingChatState
        (some (ChatEventPayload.mk "run-1" "main" .final none none))).1.chatStream = none ∧
      (handleChatEvent 0 streamingChatState
        (some (ChatEventPayload.mk "run-1" "main" .final none none))).1.chatStreamStartedAt =
          none) :=
  ⟨by decide, by decide,
    handleChatEvent_terminal_own_run_clears_all 0 streamingChatState
      (ChatEventPayload.mk "run-1" "main" .final none none)
      (by decide) (Or.inl rfl) (by decide)⟩

/-- C2: a missing payload, or a payload whose sessionKey differs from the
state's, is ignored: the reducer returns the outcome `none` and the whole
state unchanged (deep equality of every field). -/
theorem handleChatEvent_mismatch_ignored (now : Int) (state : ChatState) :
    handleChatEvent now state none = (state, none) ∧
    ∀ p : ChatEventPayload, p.sessionKey ≠ state.sessionKey →
      handleChatEvent now state (some p) = (state, none) := by
  refine ⟨rfl, fun p h => ?_⟩
  simp [handleChatEvent, h]

/-- Witness for C2 at a concrete state and a payload for another session. -/
theorem handleChatEvent_mismatch_ignored_witness :
    (ChatEventPayload.mk "run-1" "other" .final none none).sessionKey ≠
        baseChatState.sessionKey ∧
    handleChatEvent 0 baseChatState
        (some (ChatEventPayload.mk "run-1" "other" .final none none)) =
      (baseChatState, none) :=
  ⟨by decide,
    (handleChatEvent_mismatch_ignored 0 baseChatState).2
      (ChatEventPayload.mk "run-1" "other" .final none none) (by decide)⟩

/-- C3: a final event for a matching session but a foreign run id leaves
chatRunId, chatStream and chatStreamStartedAt untouched, appends the
payload's message as the new last element of chatMessages exactly when it is
a structurally valid assistant message, and returns the outcome final in
either case. -/
theorem handleChatEvent_final_foreign_run (now : Int) (state : ChatState)
    (p : ChatEventPayload)
    (hsk : p.sessionKey = state.sessionKey)
    (hst : p.state = .final)
    (hrun : some p.runId ≠ state.chatRunId) :
    (handleChatEvent now state (some p)).1.chatRunId = state.chatRunId ∧
    (handleChatEvent now state (some p)).1.chatStream = state.chatStream ∧
    (handleChatEvent now state (some p)).1.chatStreamStartedAt = state.chatStreamStartedAt ∧
    (handleChatEvent now state (some p)).2 = some .final ∧
    (∀ m, asValidAssistantMessage p.message = some m →
      (handleChatEvent now state (some p)).1.chatMessages = state.chatMessages ++ [m]) ∧
    (asValidAssistantMessage p.message = none →
      (handleChatEvent now state (some p)).1.chatMessages = state.chatMessages) := by
  refine ⟨?_, ?_, ?_, ?_, fun m hm => ?_, fun hm => ?_⟩
  · simp [handleChatEvent, hsk, hst, hrun]
  · simp [handleChatEvent, hsk, hst, hrun]
  · simp [handleChatEvent, hsk, hst, hrun]
  · simp [handleChatEvent, hsk, hst, hrun]
  · simp [handleChatEvent, hsk, hst, hrun, hm]
  · simp [handleChatEvent, hsk, hst, hrun, hm]

/-- Witness for C3 at a streaming state and a sub-agent announcement carrying
a valid assistant message on a different run id. -/
theorem handleChatEvent_final_foreign_run_witness :
    (ChatEventPayload.mk "run-announce" "main" .final
        (some (.object "assistant" (some [⟨"text", "Sub-agent findings"⟩]) none)) none).sessionKey =
      streamingChatState.sessionKey ∧
    some "run-announce" ≠ streamingChatState.chatRunId ∧
    ((handleChatEvent 0 streamingChatState
        (some (ChatEventPayload.mk "run-announce" "main" .final
          (some (.object "assistant" (some [⟨"text", "Sub-agent findings"⟩]) none))
          none))).1.chatRunId = streamingChatState.chatRunId ∧
      (handleChatEvent 0 streamingChatState
        (some (ChatEventPayload.mk "run-announce" "main" .final
          (some (.object "assistant" (some [⟨"text", "Sub-agent findings"⟩]) none))
          none))).1.chatStream = streamingChatState.chatStream ∧
      (handleChatEvent 0 streamingChatState
        (some (ChatEventPayload.mk "run-announce" "main" .final
          (some (.object "assistant" (some [⟨"text", "Sub-agent findings"⟩]) none))
          none))).1.chatStreamStartedAt = streamingChatState.chatStreamStartedAt ∧
      (handleChatEvent 0 streamingChatState
        (some (ChatEventPayload.mk "run-announce" "main" .final
          (some (.object "assistant" (some [⟨"text", "Sub-agent findings"⟩]) none))
          none))).2 = some .final ∧
      (∀ m, asValidAssistantMessage (some (.object "assistant"
          (some [⟨"text", "Sub-agent findings"⟩]) none)) = some m →
        (handleChatEvent 0 streamingChatState
          (some (ChatEventPayload.mk "run-announce" "main" .final
            (some (.object "assistant" (some [⟨"text", "Sub-agent findings"⟩]) none))
            none))).1.chatMessages = streamingChatState.chatMessages ++ [m]) ∧
      (asValidAssistantMessage (some (.object "assistant"
          (some [⟨"text", "Sub-agent findings"⟩]) none)) = none →
        (handleChatEvent 0 streamingChatState
          (some (ChatEventPayload.mk "run-announce" "main" .final
            (some (.object "assistant" (some [⟨"text", "Sub-agent findings"⟩]) none))
            none))).1.chatMessages = streamingChatState.chatMessages)) :=
  ⟨by decide, by decide,
    handleChatEvent_final_foreign_run 0 streamingChatState
      (ChatEventPayload.mk "run-announce" "main" .final
        (some (.object "assistant" (some [⟨"text", "Sub-agent findings"⟩]) none)) none)
      (by decide) rfl (by decide)⟩

/-- C4: an aborted event for the active run returns the outcome aborted,
clears the run/stream fields, and appends by the fallback chain: the payload
message as-is when structurally valid; otherwise a synthesized assistant
message holding the non-empty streamed text as a single text block; otherwise
nothing (an absent or empty streamed text is not a usable fallback). -/
theorem handleChatEvent_aborted_own_run (now : Int) (state : ChatState)
    (p : ChatEventPayload)
    (hsk : p.sessionKey = state.sessionKey)
    (hst : p.state = .aborted)
    (hrun : some p.runId = state.chatRunId) :
    (handleChatEvent now state (some p)).2 = some .aborted ∧
    (handleChatEvent now state (some p)).1.chatRunId = none ∧
    (handleChatEvent now state (some p)).1.chatStream = none ∧
    (handleChatEvent now state (some p)).1.chatStreamStartedAt = none ∧
    (∀ m, asValidAssistantMessage p.message = some m →
      (handleChatEvent now state (some p)).1.chatMessages = state.chatMessages ++ [m]) ∧
    (asValidAssistantMessage p.message = none →
      ∀ s, state.chatStream = some s → s ≠ "" →
        (handleChatEvent now state (some p)).1.chatMessages =
          state.chatMessages ++ [⟨"assistant", [⟨"text", s⟩], none⟩]) ∧
    (asValidAssistantMessage p.message = none →
      (state.chatStream = none ∨ state.chatStream = some "") →
        (handleChatEvent now state (some p)).1.chatMessages = state.chatMessages) := by
  refine ⟨?_, ?_, ?_, ?_, fun m hm => ?_, fun hm s hs hne => ?_, fun hm hempty => ?_⟩
  · simp [handleChatEvent, hsk, hst, hrun]
  · simp [handleChatEvent, hsk, hst, hrun]
  · simp [handleChatEvent, hsk, hst, hrun]
  · simp [handleChatEvent, hsk, hst, hrun]
  · simp [handleChatEvent, hsk, hst, hrun, hm]
  · simp [handleChatEvent, hsk, hst, hrun, hm, hs, hne]
  · rcases hempty with h | h <;> simp [handleChatEvent, hsk, hst, hrun, hm, h]

/-- Witness for C4 at a streaming state whose aborted payload carries an
invalid (non-object) message, so the streamed partial text is kept. -/
theorem handleChatEvent_aborted_own_run_witness :
    (ChatEventPayload.mk "run-1" "main" .aborted (some (.notAnObject "x")) none).sessionKey =
        streamingChatState.sessionKey ∧
    some "run-1" = streamingChatState.chatRunId ∧
    asValidAssistantMessage (some (.notAnObject "x")) = none ∧
    streamingChatState.chatStream = some "Partial" ∧
    ((handleChatEvent 0 streamingChatState
        (some (ChatEventPayload.mk "run-1" "main" .aborted
          (some (.notAnObject "x")) none))).2 = some .aborted ∧
      (handleChatEvent 0 streamingChatState
        (some (ChatEventPayload.mk "run-1" "main" .aborted
          (some (.notAnObject "x")) none))).1.chatMessages =
        streamingChatState.chatMessages ++ [⟨"assistant", [⟨"text", "Partial"⟩], none⟩]) :=
  ⟨by decide, by decide, by decide, by decide,
    (handleChatEvent_aborted_own_run 0 streamingChatState
      (ChatEventPayload.mk "run-1" "main" .aborted (some (.notAnObject "x")) none)
      (by decide) rfl (by decide)).1,
    (handleChatEvent_aborted_own_run 0 streamingChatState
      (ChatEventPayload.mk "run-1" "main" .aborted (some (.notAnObject "x")) none)
      (by decide) rfl (by decide)).2.2.2.2.2.1
        (by decide) "Partial" (by decide) (by decide)⟩

/-- C5: a delta event for a matching session but a foreign run id is dropped
silently: the reducer returns the outcome `none` and the state — in
particular chatRunId and chatStream — completely unchanged. -/
theorem handleChatEvent_delta_foreign_run (now : Int) (state : ChatState)
    (p : ChatEventPayload)
    (hsk : p.sessionKey = state.sessionKey)
    (hst : p.state = .delta)
    (hrun : some p.runId ≠ state.chatRunId) :
    handleChatEvent now state (some p) = (state, none) := by
  simp [handleChatEvent, hsk, hst, hrun]

/-- Witness for C5 at a streaming state receiving a delta from another run. -/
theorem handleChatEvent_delta_foreign_run_witness :
    (ChatEventPayload.mk "run-announce" "main" .delta none (some "x")).sessionKey =
        streamingChatState.sessionKey ∧
    some "run-announce" ≠ streamingChatState.chatRunId ∧
    handleChatEvent 0 streamingChatState
        (some (ChatEventPayload.mk "run-announce" "main" .delta none (some "x"))) =
      (streamingChatState, none) :=
  ⟨by decide, by decide,
    handleChatEvent_delta_foreign_run 0 streamingChatState
      (ChatEventPayload.mk "run-announce" "main" .delta none (some "x"))
      (by decide) rfl (by decide)⟩

/-- C8: an aborted event for a matching session but a foreign run id leaves
the whole state unchanged — so chatRunId, chatStream and chatStreamStartedAt
keep their values and nothing is appended to chatMessages. -/
theorem handleChatEvent_aborted_foreign_run (now : Int) (state : ChatState)
    (p : ChatEventPayload)
    (hsk : p.sessionKey = state.sessionKey)
    (hst : p.state = .aborted)
    (hrun : some p.runId ≠ state.chatRunId) :
    (handleChatEvent now state (some p)).1 = state := by
  simp [handleChatEvent, hsk, hst, hrun]

/-- Witness for C8 at a streaming state receiving an aborted event for a
foreign run that carries a valid assistant message. -/
theorem handleChatEvent_aborted_foreign_run_witness :
    (ChatEventPayload.mk "run-announce" "main" .aborted
        (some (.object "assistant" (some [⟨"text", "late"⟩]) none)) none).sessionKey =
      streamingChatState.sessionKey ∧
    some "run-announce" ≠ streamingChatState.chatRunId ∧
    (handleChatEvent 0 streamingChatState
        (some (ChatEventPayload.mk "run-announce" "main" .aborted
          (some (.object "assistant" (some [⟨"text", "late"⟩]) none)) none))).1 =
      streamingChatState :=
  ⟨by decide, by decide,
    handleChatEvent_aborted_foreign_run 0 streamingChatState
      (ChatEventPayload.mk "run-announce" "main" .aborted
        (some (.object "assistant" (some [⟨"text", "late"⟩]) none)) none)
      (by decide) rfl (by decide)⟩

/-- C6: the usage summary loader derives, from a non-empty points sequence,
the last-turn tokens and cost from the last point's own totalTokens and cost
and the cumulative tokens and cost from the last point's cumulativeTokens and
cumulativeCost; from an empty sequence it clears all four usage fields to
none whatever they held before; chatUsageLoading is false when it completes. -/
theorem loadChatUsageSummary_derivation (state : ChatState) (pts : List UsagePoint) :
    (∀ p, pts.getLast? = some p →
      (loadChatUsageSummary state (.ok ⟨pts⟩)).chatUsageLastTurnTokens = some p.totalTokens ∧
      (loadChatUsageSummary state (.ok ⟨pts⟩)).chatUsageLastTurnCost = some p.cost ∧
      (loadChatUsageSummary state (.ok ⟨pts⟩)).chatUsageCumulativeTokens =
        some p.cumulativeTokens ∧
      (loadChatUsageSummary state (.ok ⟨pts⟩)).chatUsageCumulativeCost =
        some p.cumulativeCost ∧
      (loadChatUsageSummary state (.ok ⟨pts⟩)).chatUsageLoading = false) ∧
    (pts = [] →
      (loadChatUsageSummary state (.ok ⟨pts⟩)).chatUsageLastTurnTokens = none ∧
      (loadChatUsageSummary state (.ok ⟨pts⟩)).chatUsageLastTurnCost = none ∧
      (loadChatUsageSummary state (.ok ⟨pts⟩)).chatUsageCumulativeTokens = none ∧
      (loadChatUsageSummary state (.ok ⟨pts⟩)).chatUsageCumulativeCost = none ∧
      (loadChatUsageSummary state (.ok ⟨pts⟩)).chatUsageLoading = false) := by
  constructor
  · intro p hp
    simp [loadChatUsageSummary, hp]
  · intro hp
    simp [loadChatUsageSummary, hp]

/-- Witness for C6: the specification's example timeseries yields last-turn
128 tokens at cost 0.0024 and cumulative 170 tokens at cost 0.0032, and a
state with stale usage values is fully cleared by an empty timeseries. -/
theorem loadChatUsageSummary_derivation_witness :
    sampleUsagePoints.getLast? = some ⟨128, 24 / 10000, 170, 32 / 10000⟩ ∧
    ((loadChatUsageSummary baseChatState (.ok ⟨sampleUsagePoints⟩)).chatUsageLastTurnTokens =
        some 128 ∧
      (loadChatUsageSummary baseChatState (.ok ⟨sampleUsagePoints⟩)).chatUsageLastTurnCost =
        some (24 / 10000) ∧
      (loadChatUsageSummary baseChatState
          (.ok ⟨sampleUsagePoints⟩)).chatUsageCumulativeTokens = some 170 ∧
      (loadChatUsageSummary baseChatState
          (.ok ⟨sampleUsagePoints⟩)).chatUsageCumulativeCost = some (32 / 10000) ∧
      (loadChatUsageSummary baseChatState (.ok ⟨sampleUsagePoints⟩)).chatUsageLoading =
        false) ∧
    ((loadChatUsageSummary { baseChatState with chatUsageLastTurnTokens := some 12 }
        (.ok ⟨[]⟩)).chatUsageLastTurnTokens = none ∧
      (loadChatUsageSummary { baseChatState with chatUsageLastTurnTokens := some 12 }
        (.ok ⟨[]⟩)).chatUsageLastTurnCost = none ∧
      (loadChatUsageSummary { baseChatState with chatUsageLastTurnTokens := some 12 }
        (.ok ⟨[]⟩)).chatUsageCumulativeTokens = none ∧
      (loadChatUsageSummary { baseChatState with chatUsageLastTurnTokens := some 12 }
        (.ok ⟨[]⟩)).chatUsageCumulativeCost = none ∧
      (loadChatUsageSummary { baseChatState with chatUsageLastTurnTokens := some 12 }
        (.ok ⟨[]⟩)).chatUsageLoading = false) :=
  ⟨rfl,
    (loadChatUsageSummary_derivation baseChatState sampleUsagePoints).1
      ⟨128, 24 / 10000, 170, 32 / 10000⟩ rfl,
    (loadChatUsageSummary_derivation
      { baseChatState with chatUsageLastTurnTokens := some 12 } []).2 rfl⟩

/-- C7: when the history fetch succeeds and the usage fetch fails, the usage
failure is swallowed: lastError ends none even if it held a prior error,
chatMessages is replaced by the history response's messages, the thinking
level is taken from the response, chatLoading ends false, and the four usage
fields keep exactly the values they had before the call. -/
theorem loadChatHistory_usage_failure_isolated (state : ChatState)
    (h : HistoryResponse) (e : String) :
    (loadChatHistory state (.ok h) (.error e)).lastError = none ∧
    (loadChatHistory state (.ok h) (.error e)).chatMessages = h.messages ∧
    (loadChatHistory state (.ok h) (.error e)).chatThinkingLevel = h.thinkingLevel ∧
    (loadChatHistory state (.ok h) (.error e)).chatLoading = false ∧
    (loadChatHistory state (.ok h) (.error e)).chatUsageLastTurnTokens =
      state.chatUsageLastTurnTokens ∧
    (loadChatHistory state (.ok h) (.error e)).chatUsageLastTurnCost =
      state.chatUsageLastTurnCost ∧
    (loadChatHistory state (.ok h) (.error e)).chatUsageCumulativeTokens =
      state.chatUsageCumulativeTokens ∧
    (loadChatHistory state (.ok h) (.error e)).chatUsageCumulativeCost =
      state.chatUsageCumulativeCost := by
  refine ⟨?_, ?_, ?_, ?_, ?_, ?_, ?_, ?_⟩ <;>
    simp [loadChatHistory, loadChatUsageSummary]

/-- The common prefix length never exceeds the first path's length. -/
theorem commonLen_le_left (r t : List String) : commonLen r t ≤ r.length := by
  induction r generalizing t with
  | nil => simp [commonLen]
  | cons a as ih =>
    cases t with
    | nil => simp [commonLen]
    | cons b bs =>
      by_cases h : a = b
      · simpa [commonLen, h] using ih bs
      · simp [commonLen, h]

/-- A full-length common prefix means the first path is a prefix of the
second. -/
theorem commonLen_full_isPrefixOf (r t : List String)
    (h : commonLen r t = r.length) : r.isPrefixOf t = true := by
  induction r generalizing t with
  | nil => simp [List.isPrefixOf]
  | cons a as ih =>
    cases t with
    | nil => simp [commonLen] at h
    | cons b bs =>
      by_cases hab : a = b
      · subst hab
        simp [commonLen] at h
        simpa [List.isPrefixOf] using ih bs h
      · simp [commonLen, hab] at h

/-- The containment check of identity-avatar.ts is sound: when isPathWithin
accepts, the target really lies below the root (the root's components are a
prefix of the target's). -/
theorem isPathWithin_isPrefixOf (r t : List String)
    (h : isPathWithin r t = true) : r.isPrefixOf t = true := by
  have hle := commonLen_le_left r t
  by_cases hc : commonLen r t = r.length
  · exact commonLen_full_isPrefixOf r t hc
  · exfalso
    have hlt : commonLen r t < r.length := lt_of_le_of_ne hle hc
    have hpos : r.length - commonLen r t ≠ 0 := Nat.sub_ne_zero_of_lt hlt
    unfold isPathWithin relComponents at h
    rcases hn : r.length - commonLen r t with _ | k
    · exact hpos hn
    · rw [hn] at h
      simp only [List.replicate_succ, List.cons_append] at h
      simp [strStartsWith, List.isPrefixOf] at h

/-- Prefixes extend along appends on the right. -/
theorem isPrefixOf_append_right (r d l : List String)
    (h : r.isPrefixOf d = true) : r.isPrefixOf (d ++ l) = true := by
  induction r generalizing d with
  | nil => simp [List.isPrefixOf]
  | cons a as ih =>
    cases d with
    | nil => simp [List.isPrefixOf] at h
    | cons b bs =>
      simp only [List.isPrefixOf, List.cons_append, Bool.and_eq_true, beq_iff_eq] at h ⊢
      exact ⟨h.1, ih bs h.2⟩

/-- Membership in an insertion step. -/
theorem mem_insertSorted (x y : List String) (l : List (List String)) :
    y ∈ insertSorted x l ↔ y = x ∨ y ∈ l := by
  induction l with
  | nil => simp [insertSorted]
  | cons z zs ih =>
    by_cases h : pathLe x z = true
    · simp [insertSorted, h]
    · simp only [insertSorted, if_neg h, List.mem_cons, ih]
      tauto

/-- Sorting keeps exactly the original members. -/
theorem mem_sortPaths (x : List String) (l : List (List String)) :
    x ∈ sortPaths l ↔ x ∈ l := by
  induction l with
  | nil => simp [sortPaths]
  | cons z zs ih =>
    simp only [sortPaths, List.foldr_cons, mem_insertSorted, List.mem_cons]
    rw [sortPaths] at ih
    rw [ih]

/-- Every avatar file listed from a directory is the directory extended by
one entry name. -/
theorem listAvatarFiles_shape (env : AvatarEnv) (d x : List String)
    (h : x ∈ listAvatarFiles env d) : ∃ nm, x = d ++ [nm] := by
  rw [listAvatarFiles, mem_sortPaths] at h
  obtain ⟨e, -, rfl⟩ := List.mem_map.mp h
  exact ⟨e.name, rfl⟩

/-- getD at an in-range index yields a member. -/
theorem getD_mem_of_lt (l : List (List String)) (k : Nat) (d : List String)
    (h : k < l.length) : l.getD k d ∈ l := by
  rw [List.getD_eq_getElem?_getD, List.getElem?_eq_getElem h]
  exact List.getElem_mem h

/-- The selection surviving revalidation is a current file, provided a stored
state whose signature matches the current signature only holds selections
from the current file list — the invariant the rotation map maintains. -/
theorem rotationReval_some_mem (files : List (List String)) (sig : String)
    (ex : Option DirectoryRotationState) (p : List String)
    (hwf : ∀ st, ex = some st → st.signature = sig →
      ∀ q, st.selectedPath = some q → q ∈ files)
    (h : (rotationReval files sig ex).1 = some p) : p ∈ files := by
  cases ex with
  | none => simp [rotationReval] at h
  | some st =>
    by_cases hs : st.signature = sig
    · rw [rotationReval] at h
      simp only [hs, ne_eq, not_true_eq_false, if_false] at h
      exact hwf st rfl hs p h
    · rw [rotationReval] at h
      simp only [ne_eq, hs, not_false_eq_true, if_true] at h
      cases hsel : st.selectedPath with
      | none => rw [hsel] at h; simp at h
      | some q =>
        rw [hsel] at h
        by_cases hq : q ∈ files
        · simp only [hq, if_true, Option.some.injEq] at h
          have hidx : pathIndexOf files q < files.length :=
            List.findIdx_lt_length_of_exists ⟨q, hq, by simp⟩
          rw [← h]
          exact getD_mem_of_lt files (pathIndexOf files q) [] hidx
        · simp [hq] at h

/-- A local result of the directory rotation is one of the directory's
listed files, under the same stored-state invariant. -/
theorem resolveAvatarFromDirectory_localRes_mem (env : AvatarEnv)
    (d : List String) (advance : Bool) (ex : Option DirectoryRotationState)
    (fp : List String) (st' : Option DirectoryRotationState)
    (hwf : ∀ st, ex = some st → st.signature = rotationSignature (listAvatarFiles env d) →
      ∀ q, st.selectedPath = some q → q ∈ listAvatarFiles env d)
    (h : resolveAvatarFromDirectory env d advance ex = (.localRes fp, st')) :
    fp ∈ listAvatarFiles env d := by
  rw [resolveAvatarFromDirectory] at h
  by_cases hlen : (listAvatarFiles env d).length = 0
  · simp [hlen] at h
  · simp only [hlen, if_false] at h
    have hpos : 0 < (listAvatarFiles env d).length := Nat.pos_of_ne_zero hlen
    cases advance with
    | true =>
      simp only [if_true, Prod.mk.injEq, AgentAvatarResolution.localRes.injEq] at h
      set n : Int := ((listAvatarFiles env d).length : Int) with hn
      set x : Int :=
        ((rotationReval (listAvatarFiles env d)
            (rotationSignature (listAvatarFiles env d)) ex).2 % n + n) % n with hx
      have hnpos : 0 < n := by
        rw [hn]; exact_mod_cast hpos
      have hx0 : 0 ≤ x := Int.emod_nonneg _ (by omega)
      have hxlt : x < n := Int.emod_lt_of_pos _ hnpos
      have hklt : x.toNat < (listAvatarFiles env d).length := by omega
      rw [← h.1]
      exact getD_mem_of_lt _ _ _ hklt
    | false =>
      simp only [Bool.false_eq_true, if_false] at h
      cases hsel : (rotationReval (listAvatarFiles env d)
          (rotationSignature (listAvatarFiles env d)) ex).1 with
      | some p =>
        rw [hsel] at h
        simp only [Prod.mk.injEq, AgentAvatarResolution.localRes.injEq] at h
        rw [← h.1]
        exact rotationReval_some_mem _ _ _ _ hwf hsel
      | none =>
        rw [hsel] at h
        simp only [Prod.mk.injEq, AgentAvatarResolution.localRes.injEq] at h
        rw [← h.1]
        exact getD_mem_of_lt _ _ _ hpos

/-- A fileOk result of resolveLocalAvatarPath is the computed real path and
passed the containment check. -/
theorem resolveLocalAvatarPath_fileOk_eq (env : AvatarEnv) (raw : String)
    (f : List String) (h : resolveLocalAvatarPath env raw = .fileOk f) :
    f = avatarRealPath env raw ∧
      isPathWithin (avatarWorkspaceRoot env) f = true := by
  rw [resolveLocalAvatarPath] at h
  by_cases hw : isPathWithin (avatarWorkspaceRoot env) (avatarRealPath env raw) = true
  · simp only [hw, Bool.not_true, Bool.false_eq_true, if_false] at h
    cases hst : env.statKind (avatarRealPath env raw) with
    | none => rw [hst] at h; simp at h
    | some k =>
      rw [hst] at h
      cases k with
      | file =>
        by_cases he :
            extnameLower (((avatarRealPath env raw).getLast?).getD "") ∈ allowedAvatarExts
        · simp [he] at h
          exact ⟨h.symm, h ▸ hw⟩
        · simp [he] at h
      | directory => simp at h
      | other => simp at h
  · have hw' : isPathWithin (avatarWorkspaceRoot env) (avatarRealPath env raw) = false := by
      cases hx : isPathWithin (avatarWorkspaceRoot env) (avatarRealPath env raw)
      · rfl
      · exact absurd hx hw
    simp [hw'] at h

/-- A directoryOk result of resolveLocalAvatarPath is the computed real path
and passed the containment check. -/
theorem resolveLocalAvatarPath_directoryOk_eq (env : AvatarEnv) (raw : String)
    (d : List String) (h : resolveLocalAvatarPath env raw = .directoryOk d) :
    d = avatarRealPath env raw ∧
      isPathWithin (avatarWorkspaceRoot env) d = true := by
  rw [resolveLocalAvatarPath] at h
  by_cases hw : isPathWithin (avatarWorkspaceRoot env) (avatarRealPath env raw) = true
  · simp only [hw, Bool.not_true, Bool.false_eq_true, if_false] at h
    cases hst : env.statKind (avatarRealPath env raw) with
    | none => rw [hst] at h; simp at h
    | some k =>
      rw [hst] at h
      cases k with
      | file =>
        by_cases he :
            extnameLower (((avatarRealPath env raw).getLast?).getD "") ∈ allowedAvatarExts
        · simp [he] at h
        · simp [he] at h
      | directory =>
        simp only [LocalAvatarResolution.directoryOk.injEq] at h
        exact ⟨h.symm, h ▸ hw⟩
      | other => simp at h
  · have hw' : isPathWithin (avatarWorkspaceRoot env) (avatarRealPath env raw) = false := by
      cases hx : isPathWithin (avatarWorkspaceRoot env) (avatarRealPath env raw)
      · rfl
      · exact absurd hx hw
    simp [hw'] at h

/-- When the real path escapes the workspace root, resolveLocalAvatarPath
rejects it as outside_workspace. -/
theorem resolveLocalAvatarPath_outside (env : AvatarEnv) (raw : String)
    (h : (avatarWorkspaceRoot env).isPrefixOf (avatarRealPath env raw) = false) :
    resolveLocalAvatarPath env raw = .err "outside_workspace" := by
  have hw : isPathWithin (avatarWorkspaceRoot env) (avatarRealPath env raw) = false := by
    cases hx : isPathWithin (avatarWorkspaceRoot env) (avatarRealPath env raw)
    · rfl
    · exact absurd (isPathWithin_isPrefixOf _ _ hx) (by simp [h])
  rw [resolveLocalAvatarPath]
  simp [hw]

/-- C9: for a configured avatar source that is neither a remote http(s) URL
nor a data: URL, if the source resolves — after real-path resolution — to a
location outside the agent's workspace root, resolveAgentAvatar answers none
with reason outside_workspace; and a local answer is always a path below the
workspace root, given the invariant that a stored rotation entry whose
signature matches the directory's current file list only selects one of
those files. -/
theorem resolveAgentAvatar_workspace_containment (env : AvatarEnv)
    (advance : Bool) (ex : Option DirectoryRotationState) (s : String)
    (hsrc : resolveAvatarSource env = some s)
    (hrem : isRemoteAvatar s = false)
    (hdat : isDataAvatar s = false)
    (hwf : ∀ st, ex = some st →
      st.signature = rotationSignature (listAvatarFiles env (avatarRealPath env s)) →
      ∀ q, st.selectedPath = some q → q ∈ listAvatarFiles env (avatarRealPath env s)) :
    ((avatarWorkspaceRoot env).isPrefixOf (avatarRealPath env s) = false →
      (resolveAgentAvatar env advance ex).1 = .noneRes "outside_workspace") ∧
    (∀ fp st', resolveAgentAvatar env advance ex = (.localRes fp, st') →
      (avatarWorkspaceRoot env).isPrefixOf fp = true) := by
  constructor
  · intro hout
    have herr := resolveLocalAvatarPath_outside env s hout
    rw [resolveAgentAvatar, hsrc]
    simp [hrem, hdat, herr]
  · intro fp st' h
    rw [resolveAgentAvatar, hsrc] at h
    simp only [hrem, Bool.false_eq_true, if_false, hdat] at h
    cases hloc : resolveLocalAvatarPath env s with
    | err r => rw [hloc] at h; simp at h
    | fileOk f =>
      rw [hloc] at h
      simp only [Prod.mk.injEq, AgentAvatarResolution.localRes.injEq] at h
      obtain ⟨hfeq, hfw⟩ := resolveLocalAvatarPath_fileOk_eq env s f hloc
      rw [← h.1]
      exact isPathWithin_isPrefixOf _ _ hfw
    | directoryOk d =>
      rw [hloc] at h
      obtain ⟨hdeq, hdw⟩ := resolveLocalAvatarPath_directoryOk_eq env s d hloc
      have hmem : fp ∈ listAvatarFiles env d := by
        refine resolveAvatarFromDirectory_localRes_mem env d advance ex fp st' ?_ h
        rw [hdeq]
        exact hwf
      obtain ⟨nm, rfl⟩ := listAvatarFiles_shape env d fp hmem
      have hpre : (avatarWorkspaceRoot env).isPrefixOf d = true :=
        isPathWithin_isPrefixOf _ _ hdw
      exact isPrefixOf_append_right _ _ _ hpre

/-- Witness for C9: on the concrete escaping environment the resolver
answers none with reason outside_workspace. -/
theorem resolveAgentAvatar_workspace_containment_witness :
    resolveAvatarSource outsideAvatarEnv = some "/etc/evil.png" ∧
    isRemoteAvatar "/etc/evil.png" = false ∧
    isDataAvatar "/etc/evil.png" = false ∧
    (avatarWorkspaceRoot outsideAvatarEnv).isPrefixOf
        (avatarRealPath outsideAvatarEnv "/etc/evil.png") = false ∧
    (resolveAgentAvatar outsideAvatarEnv false none).1 = .noneRes "outside_workspace" :=
  ⟨by decide, by decide, by decide, by decide,
    (resolveAgentAvatar_workspace_containment outsideAvatarEnv false none "/etc/evil.png"
      (by decide) (by decide) (by decide) (fun st h => nomatch h)).1 (by decide)⟩

/-- Splitting never yields an empty list of segments. -/
theorem splitNl_ne_nil (l : List Char) : splitNl l ≠ [] := by
  cases l with
  | nil => simp [splitNl]
  | cons c rest =>
    by_cases h : c = '\n'
    · simp [splitNl, h]
    · cases hr : splitNl rest with
      | nil => simp [splitNl, h, hr]
      | cons a t => simp [splitNl, h, hr]

/-- Joining undoes splitting. -/
theorem joinNl_splitNl (l : List Char) : joinNl (splitNl l) = l := by
  induction l with
  | nil => simp [splitNl, joinNl]
  | cons c rest ih =>
    by_cases h : c = '\n'
    · subst h
      cases hr : splitNl rest with
      | nil => exact absurd hr (splitNl_ne_nil rest)
      | cons a t =>
        have hg : splitNl ('\n' :: rest) = [] :: a :: t := by
          rw [splitNl, if_pos rfl, hr]
        rw [hr] at ih
        rw [hg]
        simp [joinNl, ih]
    · cases hr : splitNl rest with
      | nil => exact absurd hr (splitNl_ne_nil rest)
      | cons a t =>
        rw [hr] at ih
        cases t with
        | nil => simp_all [splitNl, joinNl]
        | cons b t' => simp_all [splitNl, joinNl]

/-- Segments produced by splitting contain no newline. -/
theorem splitNl_no_nl (l : List Char) : ∀ p ∈ splitNl l, '\n' ∉ p := by
  induction l with
  | nil => simp [splitNl]
  | cons c rest ih =>
    by_cases h : c = '\n'
    · subst h
      intro p hp
      rw [splitNl, if_pos rfl] at hp
      rcases List.mem_cons.mp hp with rfl | hp
      · simp
      · exact ih p hp
    · intro p hp
      cases hr : splitNl rest with
      | nil => exact absurd hr (splitNl_ne_nil rest)
      | cons a t =>
        rw [hr] at ih
        rw [splitNl, if_neg h, hr] at hp
        rcases List.mem_cons.mp hp with rfl | hp
        · intro hc
          rcases List.mem_cons.mp hc with hc | hc
          · exact h hc.symm
          · exact ih a (List.mem_cons_self a t) hc
        · exact ih p (List.mem_cons_of_mem a hp)

/-- Splitting a newline-free text yields the single segment itself. -/
theorem splitNl_of_no_nl (p : List Char) (h : '\n' ∉ p) : splitNl p = [p] := by
  induction p with
  | nil => simp [splitNl]
  | cons c rest ih =>
    have hc : c ≠ '\n' := fun hc => h (hc ▸ List.mem_cons_self c rest)
    have hrest : '\n' ∉ rest := fun hr => h (List.mem_cons_of_mem c hr)
    rw [splitNl, if_neg hc, ih hrest]

/-- Splitting after a newline-free head segment peels it off. -/
theorem splitNl_append_nl (p r : List Char) (h : '\n' ∉ p) :
    splitNl (p ++ '\n' :: r) = p :: splitNl r := by
  induction p with
  | nil => simp [splitNl]
  | cons c p' ih =>
    have hc : c ≠ '\n' := fun hc => h (hc ▸ List.mem_cons_self c p')
    have hp' : '\n' ∉ p' := fun hr => h (List.mem_cons_of_mem c hr)
    rw [List.cons_append, splitNl, if_neg hc, ih hp']

/-- Splitting undoes joining for a non-empty list of newline-free segments. -/
theorem splitNl_joinNl (ps : List (List Char)) (hne : ps ≠ [])
    (h : ∀ p ∈ ps, '\n' ∉ p) : splitNl (joinNl ps) = ps := by
  induction ps with
  | nil => exact absurd rfl hne
  | cons p ps' ih =>
    cases ps' with
    | nil =>
      rw [joinNl]
      exact splitNl_of_no_nl p (h p (List.mem_cons_self p []))
    | cons q ps'' =>
      rw [joinNl, splitNl_append_nl p _ (h p (List.mem_cons_self p _)),
        ih (List.cons_ne_nil q ps'') (fun x hx => h x (List.mem_cons_of_mem p hx))]
      exact fun hx => List.noConfusion hx

/-- The number of segments is the newline count plus one. -/
theorem splitNl_length (l : List Char) :
    (splitNl l).length = l.count '\n' + 1 := by
  induction l with
  | nil => simp [splitNl]
  | cons c rest ih =>
    by_cases h : c = '\n'
    · subst h
      simp [splitNl, List.count_cons, ih]
    · cases hr : splitNl rest with
      | nil => exact absurd hr (splitNl_ne_nil rest)
      | cons a t =>
        rw [hr] at ih
        simp only [splitNl, if_neg h, hr, List.length_cons, List.count_cons]
        simp only [List.length_cons] at ih
        simp [h, ih]

/-- C10: for every input, the preview has at most maxLines lines and at most
maxChars characters plus a single trailing ellipsis character; an input with
at most maxLines lines whose preview does not exceed maxChars characters is
returned unchanged; and an ellipsis is appended exactly on the truncating
branches (by characters or by lines). Stated for every positive maxLines and
every maxChars, covering the repository's PREVIEW_MAX_LINES and
PREVIEW_MAX_CHARS. -/
theorem getTruncatedPreview_bounds (maxLines maxChars : Nat) (text : List Char)
    (hL : 0 < maxLines) :
    countLines (getTruncatedPreview maxLines maxChars text) ≤ maxLines ∧
    (getTruncatedPreview maxLines maxChars text).length ≤ maxChars + 1 ∧
    ((splitNl text).length ≤ maxLines →
      (joinNl ((splitNl text).take maxLines)).length ≤ maxChars →
      getTruncatedPreview maxLines maxChars text = text) ∧
    (maxChars < (joinNl ((splitNl text).take maxLines)).length ∨
        maxLines < (splitNl text).length →
      ∃ pre, getTruncatedPreview maxLines maxChars text = pre ++ ['…']) := by
  have hall : splitNl text ≠ [] := splitNl_ne_nil text
  have f2 : (splitNl text).take maxLines ≠ [] := by
    cases hsp : splitNl text with
    | nil => exact absurd hsp hall
    | cons a as =>
      cases maxLines with
      | zero => omega
      | succ k => simp
  have f3 : ∀ p ∈ (splitNl text).take maxLines, '\n' ∉ p :=
    fun p hp => splitNl_no_nl text p (List.take_subset _ _ hp)
  have f4 : splitNl (joinNl ((splitNl text).take maxLines)) =
      (splitNl text).take maxLines :=
    splitNl_joinNl _ f2 f3
  have hlen : ((splitNl text).take maxLines).length = min maxLines (splitNl text).length :=
    List.length_take _ _
  have f6 : (joinNl ((splitNl text).take maxLines)).count '\n' + 1 =
      ((splitNl text).take maxLines).length := by
    rw [← splitNl_length, f4]
  have h8 : (['…'] : List Char).count '\n' = 0 := by decide
  by_cases hC : maxChars < (joinNl ((splitNl text).take maxLines)).length
  · have hres : getTruncatedPreview maxLines maxChars text =
        (joinNl ((splitNl text).take maxLines)).take maxChars ++ ['…'] := by
      simp only [getTruncatedPreview]
      rw [if_pos hC]
    refine ⟨?_, ?_, ?_, ?_⟩
    · rw [hres, countLines, splitNl_length, List.count_append]
      have h7 : ((joinNl ((splitNl text).take maxLines)).take maxChars).count '\n' ≤
          (joinNl ((splitNl text).take maxLines)).count '\n' :=
        (List.take_sublist _ _).count_le _
      omega
    · rw [hres, List.length_append, List.length_take]
      simp only [List.length_singleton]
      omega
    · intro h1 h2
      exact absurd h2 (by omega)
    · intro htr
      exact ⟨_, hres⟩
  · by_cases hLn : ((splitNl text).take maxLines).length < (splitNl text).length
    · have hres : getTruncatedPreview maxLines maxChars text =
          joinNl ((splitNl text).take maxLines) ++ ['…'] := by
        simp only [getTruncatedPreview]
        rw [if_neg hC, if_pos hLn]
      refine ⟨?_, ?_, ?_, ?_⟩
      · rw [hres, countLines, splitNl_length, List.count_append]
        omega
      · rw [hres, List.length_append]
        simp only [List.length_singleton]
        omega
      · intro h1 h2
        have heq : (splitNl text).take maxLines = splitNl text :=
          List.take_of_length_le h1
        rw [heq] at hLn
        exact absurd hLn (lt_irrefl _)
      · intro htr
        exact ⟨_, hres⟩
    · have hres : getTruncatedPreview maxLines maxChars text =
          joinNl ((splitNl text).take maxLines) := by
        simp only [getTruncatedPreview]
        rw [if_neg hC, if_neg hLn]
      refine ⟨?_, ?_, ?_, ?_⟩
      · rw [hres, countLines, f4]
        omega
      · rw [hres]
        omega
      · intro h1 h2
        rw [hres, List.take_of_length_le h1, joinNl_splitNl]
      · intro htr
        rcases htr with htr | htr
        · exact absurd htr hC
        · exact absurd htr (by omega)

/-- Witness for C10 at the three-line text "a\nb\nc" with a two-line,
five-character budget: the preview keeps two lines and gains an ellipsis. -/
theorem getTruncatedPreview_bounds_witness :
    0 < 2 ∧
    (countLines (getTruncatedPreview 2 5 ['a', '\n', 'b', '\n', 'c']) ≤ 2 ∧
      (getTruncatedPreview 2 5 ['a', '\n', 'b', '\n', 'c']).length ≤ 5 + 1 ∧
      ((splitNl ['a', '\n', 'b', '\n', 'c']).length ≤ 2 →
        (joinNl ((splitNl ['a', '\n', 'b', '\n', 'c']).take 2)).length ≤ 5 →
        getTruncatedPreview 2 5 ['a', '\n', 'b', '\n', 'c'] = ['a', '\n', 'b', '\n', 'c']) ∧
      (5 < (joinNl ((splitNl ['a', '\n', 'b', '\n', 'c']).take 2)).length ∨
          2 < (splitNl ['a', '\n', 'b', '\n', 'c']).length →
        ∃ pre, getTruncatedPreview 2 5 ['a', '\n', 'b', '\n', 'c'] = pre ++ ['…'])) :=
  ⟨by decide, getTruncatedPreview_bounds 2 5 ['a', '\n', 'b', '\n', 'c'] (by decide)⟩
